import Mathlib

/-!
Verification of the shared HTTP/retry/auth core of the gtm CLI
(src/lib/http.ts, src/lib/context.ts, src/auth.ts) against its
natural-language specification.

The TypeScript source is shallowly embedded: JavaScript truthiness on
optional strings / numbers is modelled explicitly (`tstr`, `tint`),
`JSON.parse` is modelled by an executable JSON parser over `Jval`
(numbers keep their source lexeme, so no floating point is involved),
`parseInt` by `jsParseInt`, and the effectful functions
(`withRetry`, `resolveAccessToken`, the OAuth callback listener) are
modelled as pure functions that also return the trace of the network /
persistence effects they perform.
-/

namespace Gtm

/-- JavaScript truthiness of a `string | undefined` value: `undefined`
and the empty string are falsy. -/
def tstr (o : Option String) : Bool :=
  match o with
  | some s => decide (s ≠ "")
  | none => false

/-- JavaScript truthiness of a `number | undefined` value: `undefined`
and `0` are falsy (`NaN`, also falsy, is modelled as `none` at the sites
that could produce it). -/
def tint (o : Option Int) : Bool :=
  match o with
  | some n => decide (n ≠ 0)
  | none => false

/-- The double-quote character. -/
def quoteC : Char := Char.ofNat 34

/-- The backslash character. -/
def backslashC : Char := Char.ofNat 92

/-- The opening curly bracket character. -/
def lbraceC : Char := Char.ofNat 123

/-- The closing curly bracket character. -/
def rbraceC : Char := Char.ofNat 125

def isHexDigitC (c : Char) : Bool :=
  c.isDigit || ( 'a' ≤ c && c ≤ 'f') || ( 'A' ≤ c && c ≤ 'F')

def hexDigitVal (c : Char) : Nat :=
  if c.isDigit then c.toNat - 48
  else if 'a' ≤ c && c ≤ 'f' then c.toNat - 87
  else if 'A' ≤ c && c ≤ 'F' then c.toNat - 55
  else 0

/-- Value of a digit string in the given base. -/
def digitsVal (base : Nat) (ds : List Char) : Nat :=
  ds.foldl (fun a c => a * base + hexDigitVal c) 0

/-- JavaScript `parseInt(s)` (radix unspecified): skip leading
whitespace, optional sign, an optional `0x`/`0X` hexadecimal prefix,
then the maximal run of digits; `NaN` (no digits) is modelled as
`none`. -/
def jsParseInt (s : String) : Option Int :=
  let cs := s.data.dropWhile Char.isWhitespace
  let signed : Bool × List Char :=
    match cs with
    | c :: t => if c = '-' then (true, t) else if c = '+' then (false, t) else (false, cs)
    | [] => (false, [])
  let neg := signed.1
  let body := signed.2
  let dec : List Char → Option Int := fun l =>
    let ds := l.takeWhile Char.isDigit
    if ds.isEmpty then none
    else
      let n : Int := Int.ofNat (digitsVal 10 ds)
      some (if neg then -n else n)
  match body with
  | c0 :: c1 :: t =>
    if c0 = '0' && (c1 = 'x' || c1 = 'X') then
      let ds := t.takeWhile isHexDigitC
      if ds.isEmpty then none
      else
        let n : Int := Int.ofNat (digitsVal 16 ds)
        some (if neg then -n else n)
    else dec body
  | _ => dec body

/-- A JSON value as `JSON.parse` produces it. Numbers keep their source
lexeme (this development never computes with them, so floating point is
not modelled). -/
inductive Jval where
  | null
  | bool (b : Bool)
  | num (lexeme : String)
  | str (s : String)
  | arr (elems : List Jval)
  | obj (fields : List (String × Jval))

/-- Property access `j[k]` on a parsed JSON value: only objects have
fields; with duplicate keys the last one wins, as in `JSON.parse`. -/
def Jval.field : Jval → String → Option Jval
  | .obj fs, k => fs.foldl (fun acc p => if p.1 = k then some p.2 else acc) none
  | _, _ => none

/-- JSON whitespace: space, tab, line feed, carriage return. -/
def jsonWs (c : Char) : Bool :=
  c = ' ' || c = Char.ofNat 9 || c = Char.ofNat 10 || c = Char.ofNat 13

def skipWs (cs : List Char) : List Char := cs.dropWhile jsonWs

/-- The single-character JSON string escapes. -/
def escChar (c : Char) : Option Char :=
  if c = quoteC then some quoteC
  else if c = backslashC then some backslashC
  else if c = '/' then some '/'
  else if c = 'b' then some (Char.ofNat 8)
  else if c = 'f' then some (Char.ofNat 12)
  else if c = 'n' then some (Char.ofNat 10)
  else if c = 'r' then some (Char.ofNat 13)
  else if c = 't' then some (Char.ofNat 9)
  else none

/-- Parse the characters of a JSON string after the opening quote,
up to and past the closing quote. -/
def parseStrChars : Nat → List Char → Option (List Char × List Char)
  | 0, _ => none
  | Nat.succ fuel, cs =>
    match cs with
    | [] => none
    | c :: rest =>
      if c = quoteC then some ([], rest)
      else if c = backslashC then
        match rest with
        | [] => none
        | e :: rest2 =>
          if e = 'u' then
            match rest2 with
            | h1 :: h2 :: h3 :: h4 :: rest3 =>
              if isHexDigitC h1 && isHexDigitC h2 && isHexDigitC h3 && isHexDigitC h4 then
                (parseStrChars fuel rest3).map
                  (fun p => (Char.ofNat (digitsVal 16 [h1, h2, h3, h4]) :: p.1, p.2))
              else none
            | _ => none
          else
            match escChar e with
            | some ch => (parseStrChars fuel rest2).map (fun p => (ch :: p.1, p.2))
            | none => none
      else if c.toNat < 32 then none
      else (parseStrChars fuel rest).map (fun p => (c :: p.1, p.2))

/-- Optional fraction part of a JSON number (dot and at least one digit). -/
def parseFrac : List Char → Option (List Char × List Char)
  | [] => some ([], [])
  | d :: u =>
    if d = '.' then
      let ds := u.takeWhile Char.isDigit
      if ds.isEmpty then none else some (d :: ds, u.dropWhile Char.isDigit)
    else some ([], d :: u)

/-- Optional exponent part of a JSON number. -/
def parseExp : List Char → Option (List Char × List Char)
  | [] => some ([], [])
  | e :: u =>
    if e = 'e' || e = 'E' then
      let su : List Char × List Char :=
        match u with
        | s :: v => if s = '+' || s = '-' then ([s], v) else ([], u)
        | [] => ([], [])
      let ds := su.2.takeWhile Char.isDigit
      if ds.isEmpty then none
      else some (e :: (su.1 ++ ds), su.2.dropWhile Char.isDigit)
    else some ([], e :: u)

/-- Parse a JSON number, returning its lexeme. -/
def parseNumber (cs : List Char) : Option (String × List Char) :=
  let signed : List Char × List Char :=
    match cs with
    | c :: t => if c = '-' then ([c], t) else ([], cs)
    | [] => ([], [])
  match signed.2 with
  | [] => none
  | c :: t =>
    if c.isDigit then
      let ipRest : List Char × List Char :=
        if c = '0' then ([c], t)
        else (c :: t.takeWhile Char.isDigit, t.dropWhile Char.isDigit)
      match parseFrac ipRest.2 with
      | none => none
      | some (fp, rest2) =>
        match parseExp rest2 with
        | none => none
        | some (ep, rest3) => some (String.mk (signed.1 ++ ipRest.1 ++ fp ++ ep), rest3)
    else none

mutual

/-- Recursive-descent JSON value parser (fuel-indexed). -/
def parseVal : Nat → List Char → Option (Jval × List Char)
  | 0, _ => none
  | Nat.succ fuel, cs =>
    match skipWs cs with
    | [] => none
    | c :: rest =>
      if c = quoteC then
        (parseStrChars (rest.length + 1) rest).map (fun p => (Jval.str (String.mk p.1), p.2))
      else if c = lbraceC then
        match skipWs rest with
        | c2 :: r2 => if c2 = rbraceC then some (Jval.obj [], r2) else parseObjItems fuel rest []
        | [] => none
      else if c = '[' then
        match skipWs rest with
        | c2 :: r2 => if c2 = ']' then some (Jval.arr [], r2) else parseArrItems fuel rest []
        | [] => none
      else if c = 'n' then
        match rest with
        | 'u' :: 'l' :: 'l' :: r => some (Jval.null, r)
        | _ => none
      else if c = 't' then
        match rest with
        | 'r' :: 'u' :: 'e' :: r => some (Jval.bool true, r)
        | _ => none
      else if c = 'f' then
        match rest with
        | 'a' :: 'l' :: 's' :: 'e' :: r => some (Jval.bool false, r)
        | _ => none
      else
        (parseNumber (c :: rest)).map (fun p => (Jval.num p.1, p.2))

/-- Comma-separated array elements up to the closing bracket. -/
def parseArrItems : Nat → List Char → List Jval → Option (Jval × List Char)
  | 0, _, _ => none
  | Nat.succ fuel, cs, acc =>
    match parseVal fuel cs with
    | none => none
    | some (v, rest) =>
      match skipWs rest with
      | [] => none
      | c :: r2 =>
        if c = ',' then parseArrItems fuel r2 (acc ++ [v])
        else if c = ']' then some (Jval.arr (acc ++ [v]), r2)
        else none

/-- Comma-separated object members up to the closing brace. -/
def parseObjItems : Nat → List Char → List (String × Jval) → Option (Jval × List Char)
  | 0, _, _ => none
  | Nat.succ fuel, cs, acc =>
    match skipWs cs with
    | [] => none
    | c :: r =>
      if c = quoteC then
        match parseStrChars (r.length + 1) r with
        | none => none
        | some (kcs, r2) =>
          match skipWs r2 with
          | [] => none
          | c2 :: r3 =>
            if c2 = ':' then
              match parseVal fuel r3 with
              | none => none
              | some (v, r4) =>
                match skipWs r4 with
                | [] => none
                | c3 :: r5 =>
                  if c3 = ',' then parseObjItems fuel r5 (acc ++ [(String.mk kcs, v)])
                  else if c3 = rbraceC then some (Jval.obj (acc ++ [(String.mk kcs, v)]), r5)
                  else none
            else none
      else none

end

/-- The model of `JSON.parse`: `none` models a thrown `SyntaxError`. -/
def jsonParse (s : String) : Option Jval :=
  match parseVal (2 * s.length + 2) s.data with
  | some (v, rest) => if (skipWs rest).isEmpty then some v else none
  | none => none

mutual

/-- JavaScript `String(v)` on a parsed JSON value (arrays join their
elements with commas, `null` elements joining as the empty string;
number lexemes are used verbatim, which leaves floating-point
re-rendering out of scope). -/
def jsStringOf : Jval → String
  | .null => "null"
  | .bool true => "true"
  | .bool false => "false"
  | .num lx => lx
  | .str s => s
  | .arr xs => String.intercalate "," (jsStringArr xs)
  | .obj _ => "[object Object]"

def jsStringArr : List Jval → List String
  | [] => []
  | v :: t =>
    (match v with
     | .null => ""
     | w => jsStringOf w) :: jsStringArr t

end

/-! ## The HTTP request primitive (`request` in src/lib/http.ts) -/

/-- The data of the `HttpError` class: message, machine-readable code,
HTTP status, and the optional retry-after hint in seconds. -/
structure HttpError where
  message : String
  code : String
  status : Nat
  retryAfter : Option Int := none
deriving DecidableEq

/-- A thrown JavaScript value as `request` and `withRetry` see it:
an `HttpError`, the `SyntaxError` of `JSON.parse` on a 2xx body, or any
other (transport/timeout/user) error. -/
inductive JsError where
  | http (e : HttpError)
  | jsonSyntaxError (raw : String)
  | other (msg : String)
deriving DecidableEq

/-- An HTTP response as delivered to `request`: status code, the
`retry-after` header (`none` when the header is absent), and the body
text. -/
structure HttpResponse where
  status : Nat
  retryAfterHeader : Option String
  bodyText : String

/-- `fetch`'s `Response.ok`: status in the 2xx range. -/
def responseOk (r : HttpResponse) : Bool :=
  decide (200 ≤ r.status) && decide (r.status ≤ 299)

/-- `retryAfter ? parseInt(retryAfter) : undefined`: an absent or empty
header is falsy and yields `undefined`; otherwise JavaScript `parseInt`
(whose `NaN` is modelled as `none`). -/
def parseRetryAfterHeader (h : Option String) : Option Int :=
  match h with
  | none => none
  | some s => if s = "" then none else jsParseInt s

/-- `json.error?.message` on a parsed body: `undefined` unless `json`
is an object whose `error` field is a non-null value with a `message`
field. -/
def optChainMsg (j : Jval) : Option Jval :=
  match j.field "error" with
  | none => none
  | some e =>
    match e with
    | .null => none
    | e => e.field "message"

/-- The `??` operator: the left value unless it is `undefined` (`none`)
or JSON `null`. -/
def jsCoalesce (a : Option Jval) (b : Option Jval) : Option Jval :=
  match a with
  | some v => match v with | .null => b | v => some v
  | none => b

/-- The `API_ERROR` message extraction: start from `HTTP <status>`, and
on a parseable body take `json.error?.message ?? json.message ?? text`;
on an unparseable body take `text || message`. -/
def apiErrorMessage (status : Nat) (text : String) : String :=
  match jsonParse text with
  | some j =>
    match jsCoalesce (jsCoalesce (optChainMsg j) (j.field "message")) (some (.str text)) with
    | some v => jsStringOf v
    | none => text
  | none => if text = "" then "HTTP " ++ toString status else text

/-- The response-classification and body-handling part of `request`:
429, then 401/403, then 404, then any other non-2xx, and finally the
2xx body (empty body yields `{}`, otherwise `JSON.parse`). -/
def request (r : HttpResponse) : Except JsError Jval :=
  if r.status = 429 then
    .error (.http ⟨"Rate limit exceeded", "RATE_LIMITED", 429,
      parseRetryAfterHeader r.retryAfterHeader⟩)
  else if r.status = 401 ∨ r.status = 403 then
    .error (.http ⟨"Authentication failed. Check your credentials or run: gtm auth login",
      "AUTH_FAILED", r.status, none⟩)
  else if r.status = 404 then
    .error (.http ⟨"Resource not found. Check the IDs provided.", "NOT_FOUND", r.status, none⟩)
  else if ¬ responseOk r then
    .error (.http ⟨apiErrorMessage r.status r.bodyText, "API_ERROR", r.status, none⟩)
  else
    if r.bodyText = "" then .ok (.obj [])
    else
      match jsonParse r.bodyText with
      | some j => .ok j
      | none => .error (.jsonSyntaxError r.bodyText)

/-! ## Request header merging -/

/-- Setting one property on a JavaScript object literal: overwrite in
place when the key exists, append otherwise. -/
def objAssign (base : List (String × String)) (k v : String) : List (String × String) :=
  if base.any (fun p => p.1 = k) then
    base.map (fun p => if p.1 = k then (k, v) else p)
  else base ++ [(k, v)]

/-- The object spread `\x7b ...base, ...entries \x7d`. -/
def objSpread (base entries : List (String × String)) : List (String × String) :=
  entries.foldl (fun acc p => objAssign acc p.1 p.2) base

/-- The headers `request` sends: the default content type spread
together with the caller-supplied headers, in that order. -/
def requestHeaders (callerHeaders : List (String × String)) : List (String × String) :=
  objSpread [("Content-Type", "application/json")] callerHeaders

/-- Reading a property of the resulting object (keys are unique after a
spread, so the first match is the value). -/
def lookupFirst (l : List (String × String)) (k : String) : Option String :=
  match l with
  | [] => none
  | p :: t => if p.1 = k then some p.2 else lookupFirst t k

/-- The value a key ends up with in an object literal written from a
list of entries: the last entry wins. -/
def lastVal (entries : List (String × String)) (k : String) : Option String :=
  entries.foldl (fun acc p => if p.1 = k then some p.2 else acc) none

/-! ## The retry engine (`withRetry` in src/lib/http.ts) -/

/-- The delay `withRetry` sleeps after a failed attempt:
`error instanceof HttpError && error.retryAfter` (truthy, so a zero or
absent hint does not count) selects `error.retryAfter * 1000`,
everything else gets `initialDelay * 2 ^ attempt`. -/
def retrySleep (e : JsError) (initialDelay attempt : Nat) : Int :=
  match e with
  | .http h =>
    match h.retryAfter with
    | some r => if r ≠ 0 then r * 1000 else (initialDelay * 2 ^ attempt : Nat)
    | none => (initialDelay * 2 ^ attempt : Nat)
  | _ => (initialDelay * 2 ^ attempt : Nat)

/-- What one run of `withRetry` did: its outcome, how many times it
invoked the wrapped operation, and the arguments of its `sleep` calls
in order (milliseconds). -/
structure RetryTrace (α : Type) where
  result : Except JsError α
  calls : Nat
  sleeps : List Int

/-- The retry loop from attempt `attempt` with `remaining` retries
left. `fn i` is the outcome of the i-th invocation of the wrapped
operation. -/
def runRetry (fn : Nat → Except JsError α) (initialDelay : Nat) :
    Nat → Nat → RetryTrace α
  | attempt, remaining =>
    match fn attempt with
    | .ok v => ⟨.ok v, 1, []⟩
    | .error e =>
      match remaining with
      | 0 => ⟨.error e, 1, []⟩
      | r + 1 =>
        let rest := runRetry fn initialDelay (attempt + 1) r
        ⟨rest.result, rest.calls + 1, retrySleep e initialDelay attempt :: rest.sleeps⟩

/-- `withRetry(fn, maxRetries, initialDelay)`: run the loop from
attempt 0 with `maxRetries` retries left. -/
def withRetry (fn : Nat → Except JsError α) (maxRetries : Nat := 3)
    (initialDelay : Nat := 1000) : RetryTrace α :=
  runRetry fn initialDelay 0 maxRetries

/-! ## The credential resolver (src/auth.ts) -/

/-- The persisted `auth` object of the config file: any subset of the
service-account and OAuth fields may be present. -/
structure AuthRecord where
  service_account_key_path : Option String := none
  oauth_token : Option String := none
  oauth_refresh_token : Option String := none
  oauth_expires_at : Option Int := none
  client_id : Option String := none
  client_secret : Option String := none
deriving DecidableEq

/-- A parsed service-account key file. -/
structure ServiceAccountKey where
  type : String
  project_id : String
  private_key_id : String
  private_key : String
  client_email : String
  client_id : String
  auth_uri : String
  token_uri : String
deriving DecidableEq

/-- The four fixed tag-manager OAuth scopes. -/
def gtmScopeList : List String :=
  ["https://www.googleapis.com/auth/tagmanager.readonly",
   "https://www.googleapis.com/auth/tagmanager.edit.containers",
   "https://www.googleapis.com/auth/tagmanager.edit.containerversions",
   "https://www.googleapis.com/auth/tagmanager.publish"]

/-- `GTM_SCOPES`: the four scopes joined with a space. -/
def GTM_SCOPES : String := String.intercalate " " gtmScopeList

/-- The signed JWT assertion `getServiceAccountToken` builds, by its
content (base64url encoding and the RSA signature bytes are abstracted:
the record keeps the signing key and algorithm instead). -/
structure JwtAssertion where
  alg : String
  typ : String
  iss : String
  scope : String
  aud : String
  iat : Int
  exp : Int
  signedWith : String
  signAlg : String
deriving DecidableEq

/-- The assertion built from a key at Unix time `nowSec`. -/
def buildAssertion (key : ServiceAccountKey) (nowSec : Int) : JwtAssertion :=
  ⟨"RS256", "JWT", key.client_email, GTM_SCOPES, key.token_uri, nowSec, nowSec + 3600,
   key.private_key, "RSA-SHA256"⟩

/-- A network call the resolver performs: a JWT-bearer exchange at a
token endpoint, or an OAuth refresh-token exchange. -/
inductive AuthEffect where
  | jwtExchange (tokenUri : String) (assertion : JwtAssertion)
  | refreshExchange (refreshToken clientId clientSecret : String)
deriving DecidableEq

/-- An error thrown out of `resolveAccessToken`. -/
inductive ResolveError where
  | keyFileError (path : String)
  | saExchangeFailed
  | refreshFailed
deriving DecidableEq

/-- The world one invocation of `resolveAccessToken` runs in: the
per-call flag, the environment variable, the persisted auth record,
the clock (milliseconds), the outcome of reading and parsing a key
file, and the outcomes the token endpoint would give the two kinds of
exchange. -/
structure ResolveEnv where
  flagValue : Option String
  envToken : Option String
  auth : Option AuthRecord
  nowMs : Int
  keyFile : String → Option ServiceAccountKey
  saExchange : Option String
  refreshExchange : Option (String × Int)

/-- What one invocation of `resolveAccessToken` did: its outcome
(`.ok none` is `undefined`), the network calls it made, and the auth
record persisted afterwards. -/
structure ResolveResult where
  result : Except ResolveError (Option String)
  effects : List AuthEffect
  authAfter : Option AuthRecord

/-- `getServiceAccountToken(keyFilePath)`: read and parse the key file
(a failure propagates), build the signed assertion with
`now = Math.floor(Date.now() / 1000)`, and perform the JWT-bearer
exchange at the key file's token endpoint; the token is returned, never
cached. -/
def getServiceAccountToken (env : ResolveEnv) (path : String) :
    Except ResolveError String × List AuthEffect :=
  match env.keyFile path with
  | none => (.error (.keyFileError path), [])
  | some key =>
    let assertion := buildAssertion key (Int.fdiv env.nowMs 1000)
    match env.saExchange with
    | some tok => (.ok tok, [.jwtExchange key.token_uri assertion])
    | none => (.error .saExchangeFailed, [.jwtExchange key.token_uri assertion])

/-- `refreshOAuthToken(refreshToken, clientId, clientSecret)`: one
refresh exchange; on success the config is rewritten with the new
`oauth_token` and `oauth_expires_at = Date.now() + expires_in * 1000`
(the other auth fields are spread through unchanged) and the new token
returned; on failure an error is thrown and nothing is persisted. -/
def refreshOAuthToken (env : ResolveEnv) (refreshToken clientId clientSecret : String) :
    Except ResolveError String × List AuthEffect × Option AuthRecord :=
  match env.refreshExchange with
  | none => (.error .refreshFailed, [.refreshExchange refreshToken clientId clientSecret], env.auth)
  | some (tok, expiresIn) =>
    let base := match env.auth with
      | some a => a
      | none => {}
    (.ok tok, [.refreshExchange refreshToken clientId clientSecret],
     some { base with oauth_token := some tok,
                      oauth_expires_at := some (env.nowMs + expiresIn * 1000) })

/-- `resolveAccessToken(flagValue)`: the per-call flag, then the
`GTM_ACCESS_TOKEN` environment variable, then the persisted record —
service-account key path first, then the OAuth shape with its
expiry/refresh logic — and `undefined` when nothing applies. -/
def resolveAccessToken (env : ResolveEnv) : ResolveResult :=
  if tstr env.flagValue then ⟨.ok env.flagValue, [], env.auth⟩
  else if tstr env.envToken then ⟨.ok env.envToken, [], env.auth⟩
  else
    match env.auth with
    | none => ⟨.ok none, [], env.auth⟩
    | some a =>
      if tstr a.service_account_key_path then
        let out := getServiceAccountToken env (a.service_account_key_path.getD "")
        ⟨out.1.map some, out.2, env.auth⟩
      else if tstr a.oauth_token then
        if tint a.oauth_expires_at && decide (env.nowMs ≥ a.oauth_expires_at.getD 0) then
          if tstr a.oauth_refresh_token && tstr a.client_id && tstr a.client_secret then
            let out := refreshOAuthToken env (a.oauth_refresh_token.getD "")
              (a.client_id.getD "") (a.client_secret.getD "")
            ⟨out.1.map some, out.2.1, out.2.2⟩
          else ⟨.ok none, [], env.auth⟩
        else ⟨.ok a.oauth_token, [], env.auth⟩
      else ⟨.ok none, [], env.auth⟩

/-- `setupServiceAccount(keyFilePath)`: the key file must read and
parse (`keyFile` is that outcome) and its `type` field must equal
`service_account`; then `config.set` replaces the whole `auth` object
of the config by one holding only the key path — `priorAuth`, the
record persisted before the call, does not flow into the result.
Errors model the process-exiting failure paths. -/
def setupServiceAccount (keyFile : Option ServiceAccountKey) (keyFilePath : String)
    (priorAuth : Option AuthRecord) : Except String AuthRecord :=
  match keyFile with
  | none => .error "Error reading service account key file"
  | some key =>
    if key.type ≠ "service_account" then
      .error "Error: The provided JSON file is not a service account key."
    else
      .ok { service_account_key_path := some keyFilePath }

/-- At most one credential shape is active: a truthy service-account
path does not coexist with any truthy OAuth field. -/
def oneShapeActive (a : AuthRecord) : Prop :=
  ¬(tstr a.service_account_key_path = true ∧
    (tstr a.oauth_token = true ∨ tstr a.oauth_refresh_token = true ∨
     tint a.oauth_expires_at = true ∨ tstr a.client_id = true ∨ tstr a.client_secret = true))

/-! ## The interactive-login callback listener (`waitForOAuthCallback`) -/

/-- One callback request, by its `code`, `state` and `error` query
parameters (`none` models an absent parameter). -/
structure CallbackReq where
  code : Option String
  state : Option String
  errParam : Option String
deriving DecidableEq

/-- The login promise: still pending, resolved with an authorization
code, or rejected. -/
inductive LoginOutcome where
  | pending
  | success (code : String)
  | failure (msg : String)
deriving DecidableEq

/-- The listener: whether `server.close()` has run, and the promise. -/
structure ListenerState where
  closed : Bool
  outcome : LoginOutcome
deriving DecidableEq

/-- The request handler of `waitForOAuthCallback`: a truthy `error`
parameter closes the listener and rejects; a `state` mismatch answers
400 and keeps listening; a missing (falsy) `code` answers 400 and keeps
listening; otherwise the listener closes and the promise resolves with
the code. A closed listener handles nothing. -/
def handleCallback (expectedState : String) (st : ListenerState) (r : CallbackReq) :
    ListenerState :=
  if st.closed then st
  else if tstr r.errParam then
    ⟨true, .failure ("OAuth authorization failed: " ++ r.errParam.getD "")⟩
  else if r.state ≠ some expectedState then st
  else if ¬ tstr r.code then st
  else ⟨true, .success (r.code.getD "")⟩

/-- The listener run over a sequence of incoming callbacks, from the
freshly opened state. -/
def waitForOAuthCallback (expectedState : String) (reqs : List CallbackReq) : ListenerState :=
  reqs.foldl (handleCallback expectedState) ⟨false, .pending⟩

/-! ## Concrete fixtures used by witnesses and counterexamples -/

/-- The `RATE_LIMITED` error with a given retry-after hint, as
`request` constructs it for a 429. -/
def rlErr (r : Option Int) : JsError :=
  .http ⟨"Rate limit exceeded", "RATE_LIMITED", 429, r⟩

/-- A well-formed service-account key fixture. -/
def key0 : ServiceAccountKey :=
  ⟨"service_account", "proj", "kid", "PRIVKEY", "sa@proj.iam", "cid", "authuri",
   "https://oauth2.googleapis.com/token"⟩

/-- A resolver world with nothing configured. -/
def envBase : ResolveEnv :=
  ⟨none, none, none, 1000000, fun _ => none, none, none⟩

/-- An auth record whose OAuth token expired (expiry 5 ms after epoch)
with full refresh credentials. -/
def oauthRecExpired : AuthRecord :=
  { oauth_token := some "tok", oauth_refresh_token := some "r",
    oauth_expires_at := some 5, client_id := some "c", client_secret := some "s" }

/-- A resolver world holding `oauthRecExpired` and a token endpoint that
would answer a refresh with `NEW`, valid for 3600 seconds. -/
def envExpired : ResolveEnv :=
  { envBase with auth := some oauthRecExpired, refreshExchange := some ("NEW", 3600) }

/-- Like `envExpired`, but the recorded expiry is 0 (the epoch itself,
which is in the past at `nowMs = 1000000`). -/
def envZeroExpiry : ResolveEnv :=
  { envBase with
      auth := some { oauthRecExpired with oauth_expires_at := some 0 },
      refreshExchange := some ("NEW", 3600) }

/-- A resolver world with a stored service-account key path whose key
file parses to `key0` and whose token endpoint answers `T`. -/
def envSA : ResolveEnv :=
  { envBase with
      auth := some { service_account_key_path := some "/k.json",
                     oauth_token := some "OLD" },
      keyFile := fun p => if p = "/k.json" then some key0 else none,
      saExchange := some "T" }

/-! ## Lemmas about the retry loop -/

theorem runRetry_calls_le (fn : Nat → Except JsError α) (d : Nat) :
    ∀ rem att, (runRetry fn d att rem).calls ≤ rem + 1 := by
  intro rem
  induction rem with
  | zero =>
    intro att
    unfold runRetry
    cases hfn : fn att <;> simp
  | succ r ih =>
    intro att
    unfold runRetry
    cases hfn : fn att with
    | ok v => simp
    | error e =>
      show (runRetry fn d (att + 1) r).calls + 1 ≤ r + 1 + 1
      have := ih (att + 1)
      omega

theorem runRetry_result_all_fail (fn : Nat → Except JsError α) (d : Nat) :
    ∀ rem att, (∀ j, j ≤ rem → ∃ e, fn (att + j) = .error e) →
      (runRetry fn d att rem).result = fn (att + rem) := by
  intro rem
  induction rem with
  | zero =>
    intro att h
    obtain ⟨e, he⟩ := h 0 (Nat.le_refl 0)
    rw [Nat.add_zero] at he
    unfold runRetry
    simp [he]
  | succ r ih =>
    intro att h
    obtain ⟨e, he⟩ := h 0 (Nat.zero_le _)
    rw [Nat.add_zero] at he
    unfold runRetry
    rw [he]
    show (runRetry fn d (att + 1) r).result = fn (att + (r + 1))
    have hrec := ih (att + 1) (fun j hj => by
      obtain ⟨e', he'⟩ := h (j + 1) (by omega)
      exact ⟨e', by rw [← he']; congr 1; omega⟩)
    rw [hrec]
    congr 1
    omega

theorem runRetry_sleeps_get (fn : Nat → Except JsError α) (d : Nat) :
    ∀ i att rem (es : Nat → JsError), i < rem →
      (∀ j, j ≤ i → fn (att + j) = .error (es j)) →
      (runRetry fn d att rem).sleeps[i]? = some (retrySleep (es i) d (att + i)) := by
  intro i
  induction i with
  | zero =>
    intro att rem es hlt h
    obtain ⟨r, rfl⟩ : ∃ r, rem = r + 1 := ⟨rem - 1, by omega⟩
    have he := h 0 (Nat.le_refl 0)
    rw [Nat.add_zero] at he
    unfold runRetry
    rw [he]
    show (retrySleep (es 0) d att :: (runRetry fn d (att + 1) r).sleeps)[0]? =
      some (retrySleep (es 0) d (att + 0))
    simp
  | succ i ih =>
    intro att rem es hlt h
    obtain ⟨r, rfl⟩ : ∃ r, rem = r + 1 := ⟨rem - 1, by omega⟩
    have he := h 0 (Nat.zero_le _)
    rw [Nat.add_zero] at he
    unfold runRetry
    rw [he]
    show (retrySleep (es 0) d att :: (runRetry fn d (att + 1) r).sleeps)[i + 1]? =
      some (retrySleep (es (i + 1)) d (att + (i + 1)))
    rw [List.getElem?_cons_succ]
    have hrec := ih (att + 1) r (fun j => es (j + 1)) (by omega) (fun j hj => by
      rw [show att + 1 + j = att + (j + 1) by omega]
      exact h (j + 1) (by omega))
    rw [hrec]
    congr 2
    omega

/-! ## Claim theorems -/

/-- C1: with `maxRetries = 3` the wrapped operation is invoked at most 4
times (initial attempt plus up to 3 retries), and if every attempt
fails, `withRetry` re-throws the error value of the final failed
attempt unchanged. -/
theorem withRetry_calls_le_four_and_rethrows_last (fn : Nat → Except JsError α) (d : Nat) :
    (withRetry fn 3 d).calls ≤ 4 ∧
    ((∀ j, j ≤ 3 → ∃ e, fn j = .error e) → (withRetry fn 3 d).result = fn 3) := by
  constructor
  · exact runRetry_calls_le fn d 3 0
  · intro h
    have := runRetry_result_all_fail fn d 3 0 (fun j hj => by simpa using h j hj)
    simpa using this

/-- C3 (amended): when attempt `i < maxRetries` fails, the sleep before
attempt `i + 1` is `retrySleep` of the error: an `HttpError` carrying a
NONZERO retry-after value sleeps exactly that many seconds (in this
program only `RATE_LIMITED` errors carry one); every other failure —
including a `RATE_LIMITED` error whose retry-after is zero or absent,
`AUTH_FAILED`, `NOT_FOUND` and unclassified errors — sleeps
`initialDelay * 2 ^ i` milliseconds, with no jitter. -/
theorem withRetry_sleep_schedule (fn : Nat → Except JsError α) (es : Nat → JsError)
    (d mR i : Nat) (hi : i < mR) (hfail : ∀ j, j ≤ i → fn j = .error (es j)) :
    (withRetry fn mR d).sleeps[i]? = some (retrySleep (es i) d i) ∧
    (∀ h r, h.retryAfter = some r → r ≠ 0 → retrySleep (.http h) d i = r * 1000) ∧
    (∀ h, h.retryAfter = none ∨ h.retryAfter = some 0 →
      retrySleep (.http h) d i = (d * 2 ^ i : Nat)) ∧
    (∀ m, retrySleep (.other m) d i = (d * 2 ^ i : Nat)) ∧
    (∀ t, retrySleep (.jsonSyntaxError t) d i = (d * 2 ^ i : Nat)) := by
  refine ⟨?_, ?_, ?_, ?_, ?_⟩
  · have := runRetry_sleeps_get fn d i 0 mR es hi (fun j hj => by simpa using hfail j hj)
    simpa using this
  · intro h r hr hne
    simp [retrySleep, hr, hne]
  · rintro h (hr | hr) <;> simp [retrySleep, hr]
  · intro m
    rfl
  · intro t
    rfl

/-- Witness for C3: an operation that always fails rate-limited with a
retry-after of 7 seconds sleeps 7000 ms before the second attempt. -/
theorem withRetry_sleep_schedule_witness :
    (withRetry (fun _ => .error (rlErr (some 7)) : Nat → Except JsError Nat)
      3 1000).sleeps[0]? = some 7000 := by
  have := (withRetry_sleep_schedule (fun _ => .error (rlErr (some 7)) : Nat → Except JsError Nat)
    (fun _ => rlErr (some 7)) 1000 3 0 (by omega) (fun j hj => rfl)).1
  exact this.trans (by rfl)

theorem jsCoalesce_skip (a b : Option Jval) (h : jsCoalesce a none = none) :
    jsCoalesce a b = b := by
  cases a with
  | none => rfl
  | some v => cases v <;> simp_all [jsCoalesce]

theorem jsonParse_empty : jsonParse "" = none := rfl

theorem apiErrorMessage_error_msg (status : Nat) (text : String) (j : Jval) (m : String)
    (hp : jsonParse text = some j) (hm : optChainMsg j = some (.str m)) :
    apiErrorMessage status text = m := by
  simp only [apiErrorMessage, hp, hm]
  rfl

theorem apiErrorMessage_msg_field (status : Nat) (text : String) (j : Jval) (m : String)
    (hp : jsonParse text = some j) (hskip : jsCoalesce (optChainMsg j) none = none)
    (hm : j.field "message" = some (.str m)) :
    apiErrorMessage status text = m := by
  simp only [apiErrorMessage, hp]
  rw [jsCoalesce_skip _ _ hskip, hm]
  rfl

theorem apiErrorMessage_raw_text (status : Nat) (text : String) (j : Jval)
    (hp : jsonParse text = some j) (h1 : jsCoalesce (optChainMsg j) none = none)
    (h2 : jsCoalesce (j.field "message") none = none) :
    apiErrorMessage status text = text := by
  simp only [apiErrorMessage, hp]
  rw [jsCoalesce_skip _ _ h1, jsCoalesce_skip _ _ h2]
  rfl

theorem apiErrorMessage_unparseable (status : Nat) (text : String)
    (hp : jsonParse text = none) (ht : text ≠ "") :
    apiErrorMessage status text = text := by
  simp [apiErrorMessage, hp, ht]

theorem apiErrorMessage_empty_body (status : Nat) :
    apiErrorMessage status "" = "HTTP " ++ toString status := by
  simp [apiErrorMessage, jsonParse_empty]

/-- C2: `request` classifies responses: 429 to `RATE_LIMITED` with the
parsed retry-after header when one parses and no hint when the header
is absent; 401/403 to `AUTH_FAILED`; 404 to `NOT_FOUND`; all remaining
non-2xx statuses to `API_ERROR`, whose message comes from the body in
the priority `error.message`, then `message`, then the raw body text,
then `HTTP <status>`, and which carries the raw status code. -/
theorem request_response_classification (r : HttpResponse) :
    (r.status = 429 → ∃ e, request r = .error (.http e) ∧ e.code = "RATE_LIMITED" ∧
      e.status = 429 ∧
      (r.retryAfterHeader = none → e.retryAfter = none) ∧
      (∀ hRA n, r.retryAfterHeader = some hRA → jsParseInt hRA = some n →
        e.retryAfter = some n)) ∧
    ((r.status = 401 ∨ r.status = 403) → ∃ e, request r = .error (.http e) ∧
      e.code = "AUTH_FAILED" ∧ e.status = r.status ∧ e.retryAfter = none) ∧
    (r.status = 404 → ∃ e, request r = .error (.http e) ∧ e.code = "NOT_FOUND" ∧
      e.status = 404 ∧ e.retryAfter = none) ∧
    (r.status ≠ 429 → r.status ≠ 401 → r.status ≠ 403 → r.status ≠ 404 →
      ¬(200 ≤ r.status ∧ r.status ≤ 299) → ∃ e, request r = .error (.http e) ∧
      e.code = "API_ERROR" ∧ e.status = r.status ∧
      (∀ j m, jsonParse r.bodyText = some j → optChainMsg j = some (.str m) →
        e.message = m) ∧
      (∀ j m, jsonParse r.bodyText = some j → jsCoalesce (optChainMsg j) none = none →
        j.field "message" = some (.str m) → e.message = m) ∧
      (∀ j, jsonParse r.bodyText = some j → jsCoalesce (optChainMsg j) none = none →
        jsCoalesce (j.field "message") none = none → e.message = r.bodyText) ∧
      (jsonParse r.bodyText = none → r.bodyText ≠ "" → e.message = r.bodyText) ∧
      (r.bodyText = "" → e.message = "HTTP " ++ toString r.status)) := by
  refine ⟨?_, ?_, ?_, ?_⟩
  · intro h429
    refine ⟨⟨"Rate limit exceeded", "RATE_LIMITED", 429, parseRetryAfterHeader r.retryAfterHeader⟩,
      by simp [request, h429], rfl, rfl, ?_, ?_⟩
    · intro hnone
      simp [parseRetryAfterHeader, hnone]
    · intro hRA n hsome hparse
      have hne : hRA ≠ "" := by
        intro hempty
        subst hempty
        exact absurd hparse (by simp [jsParseInt, digitsVal])
      simp [parseRetryAfterHeader, hsome, hne, hparse]
  · intro h
    have h429 : r.status ≠ 429 := by omega
    refine ⟨⟨"Authentication failed. Check your credentials or run: gtm auth login",
      "AUTH_FAILED", r.status, none⟩, ?_, rfl, rfl, rfl⟩
    rcases h with h | h <;> simp [request, h429, h]
  · intro h404
    have h429 : r.status ≠ 429 := by omega
    have h401 : r.status ≠ 401 := by omega
    have h403 : r.status ≠ 403 := by omega
    exact ⟨⟨"Resource not found. Check the IDs provided.", "NOT_FOUND", r.status, none⟩,
      by simp [request, h429, h401, h403, h404], rfl, by rw [h404], rfl⟩
  · intro h1 h2 h3 h4 h5
    have hok : responseOk r = false := by
      simp only [responseOk, Bool.and_eq_false_iff, decide_eq_false_iff_not]
      omega
    refine ⟨⟨apiErrorMessage r.status r.bodyText, "API_ERROR", r.status, none⟩,
      by simp [request, h1, h2, h3, h4, hok], rfl, rfl, ?_, ?_, ?_, ?_, ?_⟩
    · intro j m hp hm
      exact apiErrorMessage_error_msg r.status r.bodyText j m hp hm
    · intro j m hp hskip hm
      exact apiErrorMessage_msg_field r.status r.bodyText j m hp hskip hm
    · intro j hp ha hb
      exact apiErrorMessage_raw_text r.status r.bodyText j hp ha hb
    · intro hp ht
      exact apiErrorMessage_unparseable r.status r.bodyText hp ht
    · intro hbody
      rw [hbody]
      exact apiErrorMessage_empty_body r.status

/-- C4: for a 2xx response, an empty body yields the empty object (no
throw, no null); a non-empty body yields exactly the JSON-parsed
structure of the body, and a non-empty body that is not valid JSON
fails with the parse error. -/
theorem request_2xx_body_handling (r : HttpResponse)
    (hlo : 200 ≤ r.status) (hhi : r.status ≤ 299) :
    (r.bodyText = "" → request r = .ok (.obj [])) ∧
    (∀ j, jsonParse r.bodyText = some j → request r = .ok j) ∧
    (r.bodyText ≠ "" → jsonParse r.bodyText = none →
      request r = .error (.jsonSyntaxError r.bodyText)) := by
  have h1 : r.status ≠ 429 := by omega
  have h2 : r.status ≠ 401 := by omega
  have h3 : r.status ≠ 403 := by omega
  have h4 : r.status ≠ 404 := by omega
  have hok : responseOk r = true := by
    simp only [responseOk, Bool.and_eq_true, decide_eq_true_eq]
    omega
  refine ⟨?_, ?_, ?_⟩
  · intro hbody
    simp [request, h1, h2, h3, h4, hok, hbody]
  · intro j hp
    have hne : r.bodyText ≠ "" := by
      intro hempty
      rw [hempty, jsonParse_empty] at hp
      exact absurd hp (by simp)
    simp [request, h1, h2, h3, h4, hok, hne, hp]
  · intro hne hp
    simp [request, h1, h2, h3, h4, hok, hne, hp]

/-- Witness for C4: a bodyless 204 yields the empty object. -/
theorem request_2xx_body_handling_witness :
    request ⟨204, none, ""⟩ = .ok (.obj []) :=
  (request_2xx_body_handling ⟨204, none, ""⟩ (by decide) (by decide)).1 rfl

theorem lookupFirst_map_set (t : List (String × String)) (k v : String)
    (h : t.any (fun p => p.1 = k) = true) :
    lookupFirst (t.map (fun p => if p.1 = k then (k, v) else p)) k = some v := by
  induction t with
  | nil => simp at h
  | cons p t ih =>
    by_cases hp : p.1 = k
    · simp [lookupFirst, hp]
    · have h2 : t.any (fun p => p.1 = k) = true := by
        simpa [hp] using h
      simp [lookupFirst, hp, ih h2]

theorem lookupFirst_map_ne (t : List (String × String)) (k v q : String) (hq : q ≠ k) :
    lookupFirst (t.map (fun p => if p.1 = k then (k, v) else p)) q = lookupFirst t q := by
  induction t with
  | nil => rfl
  | cons p t ih =>
    by_cases hp : p.1 = k
    · have hkq : k ≠ q := fun h => hq h.symm
      have hpq : p.1 ≠ q := by rw [hp]; exact hkq
      simp [lookupFirst, hp, hkq, hpq, ih]
    · by_cases hpq : p.1 = q <;> simp [lookupFirst, hp, hpq, hq, ih]

theorem lookupFirst_append_one (t : List (String × String)) (k v q : String)
    (h : t.any (fun p => p.1 = k) = false) :
    lookupFirst (t ++ [(k, v)]) q = if q = k then some v else lookupFirst t q := by
  induction t with
  | nil =>
    by_cases hq : q = k
    · simp [lookupFirst, hq]
    · have : k ≠ q := fun hh => hq hh.symm
      simp [lookupFirst, hq, this]
  | cons p t ih =>
    have hpk : p.1 ≠ k := by
      intro hh
      simp [hh] at h
    have ht : t.any (fun p => p.1 = k) = false := by
      simpa [hpk] using h
    by_cases hpq : p.1 = q
    · have hqk : ¬ q = k := by
        intro hh
        exact hpk (by rw [hpq, hh])
      simp [lookupFirst, hpq, hqk]
    · simp [lookupFirst, hpq, ih ht]

theorem lookupFirst_objAssign (base : List (String × String)) (k v q : String) :
    lookupFirst (objAssign base k v) q = if q = k then some v else lookupFirst base q := by
  by_cases hmem : base.any (fun p => p.1 = k) = true
  · rw [objAssign, if_pos hmem]
    by_cases hq : q = k
    · rw [if_pos hq, hq]
      exact lookupFirst_map_set base k v hmem
    · rw [if_neg hq]
      exact lookupFirst_map_ne base k v q hq
  · rw [objAssign, if_neg hmem]
    exact lookupFirst_append_one base k v q (by
      simp only [Bool.not_eq_true] at hmem
      exact hmem)

theorem lastVal_foldl (t : List (String × String)) (k : String) (acc : Option String) :
    t.foldl (fun a p => if p.1 = k then some p.2 else a) acc =
      match lastVal t k with
      | some v => some v
      | none => acc := by
  induction t generalizing acc with
  | nil => simp [lastVal]
  | cons p t ih =>
    show t.foldl _ (if p.1 = k then some p.2 else acc) = _
    rw [ih]
    conv_rhs => rw [lastVal]
    show _ = match t.foldl _ (if p.1 = k then some p.2 else none) with
      | some v => some v
      | none => acc
    rw [ih]
    cases lastVal t k with
    | some v => rfl
    | none => by_cases hp : p.1 = k <;> simp [hp]

theorem lookupFirst_objSpread (entries : List (String × String))
    (base : List (String × String)) (q : String) :
    lookupFirst (objSpread base entries) q =
      match lastVal entries q with
      | some v => some v
      | none => lookupFirst base q := by
  induction entries generalizing base with
  | nil => simp [objSpread, lastVal]
  | cons p t ih =>
    show lookupFirst (objSpread (objAssign base p.1 p.2) t) q = _
    rw [ih, lookupFirst_objAssign]
    have : lastVal (p :: t) q =
        match lastVal t q with
        | some v => some v
        | none => if p.1 = q then some p.2 else none := by
      show t.foldl _ (if p.1 = q then some p.2 else none) = _
      exact lastVal_foldl t q _
    rw [this]
    cases lastVal t q with
    | some v => rfl
    | none =>
      by_cases hq : q = p.1
      · simp [hq]
      · have : p.1 ≠ q := fun hh => hq hh.symm
        simp [hq, this]

/-- C9: the headers `request` sends are the default
`Content-Type: application/json` spread together with the
caller-supplied headers, the caller winning: a caller-supplied
`Content-Type` entry overrides the default, any other caller entry is
preserved unchanged, and without a caller `Content-Type` the default
applies. -/
theorem requestHeaders_merge_precedence (caller : List (String × String)) :
    (∀ v, lastVal caller "Content-Type" = some v →
      lookupFirst (requestHeaders caller) "Content-Type" = some v) ∧
    (lastVal caller "Content-Type" = none →
      lookupFirst (requestHeaders caller) "Content-Type" = some "application/json") ∧
    (∀ k v, lastVal caller k = some v → lookupFirst (requestHeaders caller) k = some v) ∧
    (∀ k, k ≠ "Content-Type" → lastVal caller k = none →
      lookupFirst (requestHeaders caller) k = none) := by
  have base := fun q => lookupFirst_objSpread caller [("Content-Type", "application/json")] q
  refine ⟨?_, ?_, ?_, ?_⟩
  · intro v hv
    rw [requestHeaders, base, hv]
  · intro hnone
    rw [requestHeaders, base, hnone]
    rfl
  · intro k v hv
    rw [requestHeaders, base, hv]
  · intro k hk hnone
    rw [requestHeaders, base, hnone]
    have : "Content-Type" ≠ k := fun hh => hk hh.symm
    simp [lookupFirst, this]

/-- Counterexample to C3 as stated: a 429 response whose `retry-after`
header is `0` produces a `RATE_LIMITED` error carrying the retry-after
value 0, yet the sleep before the next attempt is the exponential
backoff of 1000 ms, not the claimed `0 * 1000` ms. -/
theorem withRetry_zero_retry_after_backoff_cex :
    request ⟨429, some "0", ""⟩ = .error (rlErr (some 0)) ∧
    (withRetry (fun _ => .error (rlErr (some 0)) : Nat → Except JsError Nat)
      3 1000).sleeps[0]? = some 1000 ∧
    (1000 : Int) ≠ 0 * 1000 := by
  exact ⟨rfl, rfl, by decide⟩

/-- C5: the token source priority of `resolveAccessToken`: a truthy
per-call flag is returned unchanged with no validation and no network
call; otherwise a truthy `GTM_ACCESS_TOKEN` environment value is
returned; otherwise the persisted record is consulted, where a truthy
service-account key path takes the service-account branch regardless of
any OAuth fields also present; with no record the result is absent. -/
theorem resolveAccessToken_source_priority (env : ResolveEnv) :
    (tstr env.flagValue = true → resolveAccessToken env = ⟨.ok env.flagValue, [], env.auth⟩) ∧
    (tstr env.flagValue = false → tstr env.envToken = true →
      resolveAccessToken env = ⟨.ok env.envToken, [], env.auth⟩) ∧
    (tstr env.flagValue = false → tstr env.envToken = false → env.auth = none →
      resolveAccessToken env = ⟨.ok none, [], none⟩) ∧
    (∀ a, tstr env.flagValue = false → tstr env.envToken = false → env.auth = some a →
      tstr a.service_account_key_path = true →
      resolveAccessToken env =
        ⟨(getServiceAccountToken env (a.service_account_key_path.getD "")).1.map some,
         (getServiceAccountToken env (a.service_account_key_path.getD "")).2, env.auth⟩) := by
  refine ⟨?_, ?_, ?_, ?_⟩
  · intro h
    simp [resolveAccessToken, h]
  · intro h1 h2
    simp [resolveAccessToken, h1, h2]
  · intro h1 h2 h3
    simp [resolveAccessToken, h1, h2, h3]
  · intro a h1 h2 h3 h4
    simp [resolveAccessToken, h1, h2, h3, h4]

/-- C6 (amended): for a stored OAuth record: when no expiry is
recorded, the recorded expiry is ZERO, or the expiry lies in the
future, the stored token is returned with no network call; when a
NONZERO recorded expiry has been reached and refresh token plus client
credentials are present, exactly one refresh exchange runs, the new
token and expiry are persisted and the refreshed token returned (the
failure of that exchange throws after the same single exchange); when a
nonzero recorded expiry has been reached and the refresh credentials
are incomplete, the result is absent with no network call. -/
theorem resolveAccessToken_oauth_lifecycle (env : ResolveEnv) (a : AuthRecord)
    (hf : tstr env.flagValue = false) (he : tstr env.envToken = false)
    (ha : env.auth = some a) (hsa : tstr a.service_account_key_path = false)
    (htok : tstr a.oauth_token = true) :
    ((tint a.oauth_expires_at = false ∨
        (∃ t, a.oauth_expires_at = some t ∧ env.nowMs < t)) →
      resolveAccessToken env = ⟨.ok a.oauth_token, [], env.auth⟩) ∧
    (∀ t rt cid cs tok expIn, a.oauth_expires_at = some t → t ≠ 0 → env.nowMs ≥ t →
      a.oauth_refresh_token = some rt → rt ≠ "" → a.client_id = some cid → cid ≠ "" →
      a.client_secret = some cs → cs ≠ "" → env.refreshExchange = some (tok, expIn) →
      resolveAccessToken env =
        ⟨.ok (some tok), [.refreshExchange rt cid cs],
         some { a with oauth_token := some tok,
                       oauth_expires_at := some (env.nowMs + expIn * 1000) }⟩) ∧
    (∀ t rt cid cs, a.oauth_expires_at = some t → t ≠ 0 → env.nowMs ≥ t →
      a.oauth_refresh_token = some rt → rt ≠ "" → a.client_id = some cid → cid ≠ "" →
      a.client_secret = some cs → cs ≠ "" → env.refreshExchange = none →
      resolveAccessToken env =
        ⟨.error .refreshFailed, [.refreshExchange rt cid cs], env.auth⟩) ∧
    (∀ t, a.oauth_expires_at = some t → t ≠ 0 → env.nowMs ≥ t →
      (tstr a.oauth_refresh_token && tstr a.client_id && tstr a.client_secret) = false →
      resolveAccessToken env = ⟨.ok none, [], env.auth⟩) := by
  refine ⟨?_, ?_, ?_, ?_⟩
  · rintro (hff | ⟨t, hsome, hlt⟩)
    · simp [resolveAccessToken, hf, he, ha, hsa, htok, hff]
    · have hdec : decide (env.nowMs ≥ a.oauth_expires_at.getD 0) = false := by
        rw [hsome]
        simp only [Option.getD_some, decide_eq_false_iff_not]
        omega
      simp [resolveAccessToken, hf, he, ha, hsa, htok, hdec]
  · intro t rt cid cs tok expIn hexp ht0 hge hrteq hrtne hcideq hcidne hcseq hcsne hex
    have hc1 : tint a.oauth_expires_at = true := by
      rw [hexp]
      simp [tint, ht0]
    have hc2 : decide (env.nowMs ≥ a.oauth_expires_at.getD 0) = true := by
      rw [hexp]
      simp only [Option.getD_some, decide_eq_true_eq]
      omega
    have hrt : tstr a.oauth_refresh_token = true := by
      rw [hrteq]
      simp [tstr, hrtne]
    have hcid : tstr a.client_id = true := by
      rw [hcideq]
      simp [tstr, hcidne]
    have hcs : tstr a.client_secret = true := by
      rw [hcseq]
      simp [tstr, hcsne]
    have hrt2 : tstr (some rt) = true := by simp [tstr, hrtne]
    have hcid2 : tstr (some cid) = true := by simp [tstr, hcidne]
    have hcs2 : tstr (some cs) = true := by simp [tstr, hcsne]
    simp [resolveAccessToken, refreshOAuthToken, hf, he, ha, hsa, htok, hc1, hc2,
      hrt, hcid, hcs, hrteq, hcideq, hcseq, hex, hrt2, hcid2, hcs2, Except.map]
  · intro t rt cid cs hexp ht0 hge hrteq hrtne hcideq hcidne hcseq hcsne hex
    have hc1 : tint a.oauth_expires_at = true := by
      rw [hexp]
      simp [tint, ht0]
    have hc2 : decide (env.nowMs ≥ a.oauth_expires_at.getD 0) = true := by
      rw [hexp]
      simp only [Option.getD_some, decide_eq_true_eq]
      omega
    have hrt : tstr a.oauth_refresh_token = true := by
      rw [hrteq]
      simp [tstr, hrtne]
    have hcid : tstr a.client_id = true := by
      rw [hcideq]
      simp [tstr, hcidne]
    have hcs : tstr a.client_secret = true := by
      rw [hcseq]
      simp [tstr, hcsne]
    have hrt2 : tstr (some rt) = true := by simp [tstr, hrtne]
    have hcid2 : tstr (some cid) = true := by simp [tstr, hcidne]
    have hcs2 : tstr (some cs) = true := by simp [tstr, hcsne]
    simp [resolveAccessToken, refreshOAuthToken, hf, he, ha, hsa, htok, hc1, hc2,
      hrt, hcid, hcs, hrteq, hcideq, hcseq, hex, hrt2, hcid2, hcs2, Except.map]
  · intro t hexp ht0 hge hand
    have hc1 : tint a.oauth_expires_at = true := by
      rw [hexp]
      simp [tint, ht0]
    have hc2 : decide (env.nowMs ≥ a.oauth_expires_at.getD 0) = true := by
      rw [hexp]
      simp only [Option.getD_some, decide_eq_true_eq]
      omega
    simp [resolveAccessToken, hf, he, ha, hsa, htok, hc1, hc2, hand]

/-- Witness for C6 (amended): an expired record with full refresh
credentials performs the one refresh exchange, persists and returns the
refreshed token. -/
theorem resolveAccessToken_oauth_lifecycle_witness :
    resolveAccessToken envExpired =
      ⟨.ok (some "NEW"), [.refreshExchange "r" "c" "s"],
       some { oauthRecExpired with
                oauth_token := some "NEW",
                oauth_expires_at := some (envExpired.nowMs + 3600 * 1000) }⟩ :=
  (resolveAccessToken_oauth_lifecycle envExpired oauthRecExpired rfl rfl rfl (by decide)
      (by decide)).2.1
    5 "r" "c" "s" "NEW" 3600 rfl (by decide) (by decide) rfl (by decide) rfl (by decide)
    rfl (by decide) rfl

/-- Counterexample to C6 as stated: with a recorded expiry of 0 (the
epoch, long past at `nowMs = 1000000`) and full refresh credentials
available, the code performs NO refresh exchange and returns the stale
stored token instead of the refreshed one. -/
theorem resolveAccessToken_zero_expiry_cex :
    (resolveAccessToken envZeroExpiry).effects = [] ∧
    (resolveAccessToken envZeroExpiry).result = .ok (some "tok") := by
  exact ⟨rfl, rfl⟩

/-- C7: with a stored service-account key path whose key file parses,
one invocation performs exactly one JWT exchange at the key's token
endpoint — also when the exchange fails — returning the exchanged
access token on success; and the signed assertion has alg RS256,
issuer = the key's client email, scope = the four tag-manager scopes
joined by spaces, audience = the key's token endpoint, issued-at =
`Math.floor(now / 1000)`, expiry = issued-at + 3600 seconds, and is
signed with the key's private key using RSA-SHA256. -/
theorem resolveAccessToken_service_account_exchange (env : ResolveEnv) (a : AuthRecord)
    (path : String) (key : ServiceAccountKey)
    (hf : tstr env.flagValue = false) (he : tstr env.envToken = false)
    (ha : env.auth = some a) (hp : a.service_account_key_path = some path) (hne : path ≠ "")
    (hk : env.keyFile path = some key) :
    (∀ tok, env.saExchange = some tok →
      resolveAccessToken env =
        ⟨.ok (some tok),
         [.jwtExchange key.token_uri (buildAssertion key (Int.fdiv env.nowMs 1000))],
         env.auth⟩) ∧
    (env.saExchange = none →
      resolveAccessToken env =
        ⟨.error .saExchangeFailed,
         [.jwtExchange key.token_uri (buildAssertion key (Int.fdiv env.nowMs 1000))],
         env.auth⟩) ∧
    buildAssertion key (Int.fdiv env.nowMs 1000) =
      ⟨"RS256", "JWT", key.client_email, GTM_SCOPES, key.token_uri,
       Int.fdiv env.nowMs 1000, Int.fdiv env.nowMs 1000 + 3600, key.private_key,
       "RSA-SHA256"⟩ ∧
    gtmScopeList.length = 4 ∧
    GTM_SCOPES = String.intercalate " " gtmScopeList := by
  have hsa : tstr a.service_account_key_path = true := by
    rw [hp]
    simp [tstr, hne]
  have hgetd : a.service_account_key_path.getD "" = path := by
    rw [hp]
    rfl
  refine ⟨?_, ?_, rfl, rfl, rfl⟩
  · intro tok hex
    simp [resolveAccessToken, getServiceAccountToken, hf, he, ha, hsa, hgetd, hk, hex,
      Except.map]
  · intro hex
    simp [resolveAccessToken, getServiceAccountToken, hf, he, ha, hsa, hgetd, hk, hex,
      Except.map]

/-- Witness for C7: a concrete service-account world mints a token via
one JWT exchange. -/
theorem resolveAccessToken_service_account_exchange_witness :
    resolveAccessToken envSA =
      ⟨.ok (some "T"),
       [.jwtExchange key0.token_uri (buildAssertion key0 (Int.fdiv envSA.nowMs 1000))],
       envSA.auth⟩ :=
  (resolveAccessToken_service_account_exchange envSA
    { service_account_key_path := some "/k.json", oauth_token := some "OLD" }
    "/k.json" key0 rfl rfl rfl rfl (by decide) (by decide)).1 "T" rfl

theorem foldl_handleCallback_ignored (expected : String) (reqs : List CallbackReq)
    (h : ∀ q ∈ reqs, tstr q.errParam = false ∧
      (q.state ≠ some expected ∨ tstr q.code = false)) :
    reqs.foldl (handleCallback expected) ⟨false, .pending⟩ = ⟨false, .pending⟩ := by
  induction reqs with
  | nil => rfl
  | cons q t ih =>
    obtain ⟨he, hor⟩ := h q (List.mem_cons_self q t)
    have hstep : handleCallback expected ⟨false, .pending⟩ q = ⟨false, .pending⟩ := by
      rcases hor with hst | hcode
      · simp [handleCallback, he, hst]
      · by_cases hstq : q.state = some expected
        · simp [handleCallback, he, hstq, hcode]
        · simp [handleCallback, he, hstq]
    rw [List.foldl_cons, hstep]
    exact ih (fun q hq => h q (List.mem_cons_of_mem _ hq))

/-- C8 (amended): on an open listener, a truthy `error` parameter
closes the listener and fails the login (regardless of state); a
`state` mismatch is answered 400 with the listener left open and the
login still pending; a matching-state callback that OMITS the code is
likewise answered 400 with the listener left open — it does NOT
terminate the listener — so in both cases a subsequent correct callback
still succeeds. -/
theorem oauthCallback_callback_policy (expected : String) (st : ListenerState)
    (r : CallbackReq) :
    (st.closed = false → tstr r.errParam = true →
      handleCallback expected st r =
        ⟨true, .failure ("OAuth authorization failed: " ++ r.errParam.getD "")⟩) ∧
    (st.closed = false → tstr r.errParam = false → r.state ≠ some expected →
      handleCallback expected st r = st) ∧
    (st.closed = false → tstr r.errParam = false → r.state = some expected →
      tstr r.code = false → handleCallback expected st r = st) ∧
    (∀ c, st.closed = false → tstr r.errParam = false → r.state = some expected →
      r.code = some c → c ≠ "" → handleCallback expected st r = ⟨true, .success c⟩) ∧
    (∀ reqs c,
      (∀ q ∈ reqs, tstr q.errParam = false ∧
        (q.state ≠ some expected ∨ tstr q.code = false)) →
      tstr r.errParam = false → r.state = some expected → r.code = some c → c ≠ "" →
      waitForOAuthCallback expected (reqs ++ [r]) = ⟨true, .success c⟩) := by
  refine ⟨?_, ?_, ?_, ?_, ?_⟩
  · intro hcl he
    simp [handleCallback, hcl, he]
  · intro hcl he hst
    simp [handleCallback, hcl, he, hst]
  · intro hcl he hst hcode
    simp [handleCallback, hcl, he, hst, hcode]
  · intro c hcl he hst hcode hcne
    have hc2 : tstr (some c) = true := by simp [tstr, hcne]
    simp [handleCallback, hcl, he, hst, hcode, hc2]
  · intro reqs c hreqs he hst hcode hcne
    rw [waitForOAuthCallback, List.foldl_append,
      foldl_handleCallback_ignored expected reqs hreqs]
    have hc2 : tstr (some c) = true := by simp [tstr, hcne]
    simp [handleCallback, he, hst, hcode, hc2]

/-- Counterexample to C8 as stated: a matching-state callback with no
`code` and no `error` leaves the listener open and the login pending —
it does not terminate the listener or fail the login — and a subsequent
correct callback then succeeds. -/
theorem oauthCallback_missing_code_cex :
    waitForOAuthCallback "S" [⟨none, some "S", none⟩] = ⟨false, .pending⟩ ∧
    waitForOAuthCallback "S" [⟨none, some "S", none⟩, ⟨some "C", some "S", none⟩] =
      ⟨true, .success "C"⟩ := by
  exact ⟨by decide, by decide⟩

/-- C10: storing a service-account key whose `type` is
`service_account` replaces the whole auth record — whatever was
persisted before — with one holding only the key path, so every OAuth
field of the result is absent, the one-active-shape invariant holds,
and `resolveAccessToken` on the resulting record never performs a
refresh exchange and, for a nonempty path, takes exactly the
service-account branch. -/
theorem setupServiceAccount_resets_auth_record (kf : Option ServiceAccountKey)
    (key : ServiceAccountKey) (path : String) (priorAuth : Option AuthRecord)
    (hk : kf = some key) (ht : key.type = "service_account") :
    setupServiceAccount kf path priorAuth = .ok ⟨some path, none, none, none, none, none⟩ ∧
    oneShapeActive ⟨some path, none, none, none, none, none⟩ ∧
    (∀ env : ResolveEnv, env.auth = some ⟨some path, none, none, none, none, none⟩ →
      ∀ eff ∈ (resolveAccessToken env).effects, ∃ uri asrt, eff = .jwtExchange uri asrt) ∧
    (∀ env : ResolveEnv, env.auth = some ⟨some path, none, none, none, none, none⟩ →
      tstr env.flagValue = false → tstr env.envToken = false → path ≠ "" →
      resolveAccessToken env =
        ⟨(getServiceAccountToken env path).1.map some,
         (getServiceAccountToken env path).2, env.auth⟩) := by
  refine ⟨?_, ?_, ?_, ?_⟩
  · subst hk
    simp [setupServiceAccount, ht]
  · rintro ⟨hsa, hbad⟩
    rcases hbad with h | h | h | h | h <;> simp [tstr, tint] at h
  · intro env ha eff heff
    cases hf : tstr env.flagValue with
    | true => simp [resolveAccessToken, hf] at heff
    | false =>
      cases hev : tstr env.envToken with
      | true => simp [resolveAccessToken, hf, hev] at heff
      | false =>
        by_cases hpe : path = ""
        · subst hpe
          have hsa0 : tstr (some "") = false := by simp [tstr]
          have htn : tstr (none : Option String) = false := rfl
          simp [resolveAccessToken, hf, hev, ha, hsa0, htn] at heff
        · have hsa : tstr (some path) = true := by simp [tstr, hpe]
          cases hkf : env.keyFile path with
          | none =>
            simp [resolveAccessToken, getServiceAccountToken, hf, hev, ha, hsa, hkf] at heff
          | some k =>
            cases hex : env.saExchange with
            | none =>
              simp [resolveAccessToken, getServiceAccountToken, hf, hev, ha, hsa, hkf,
                hex] at heff
              exact ⟨k.token_uri, buildAssertion k (Int.fdiv env.nowMs 1000), heff⟩
            | some tok =>
              simp [resolveAccessToken, getServiceAccountToken, hf, hev, ha, hsa, hkf,
                hex] at heff
              exact ⟨k.token_uri, buildAssertion k (Int.fdiv env.nowMs 1000), heff⟩
  · intro env ha hf hev hpe
    have hsa : tstr (some path) = true := by simp [tstr, hpe]
    simp [resolveAccessToken, hf, hev, ha, hsa]

/-- Witness for C10: storing `key0` over a full OAuth record leaves
only the key path. -/
theorem setupServiceAccount_resets_auth_record_witness :
    setupServiceAccount (some key0) "/k.json" (some oauthRecExpired) =
      .ok ⟨some "/k.json", none, none, none, none, none⟩ :=
  (setupServiceAccount_resets_auth_record (some key0) key0 "/k.json" (some oauthRecExpired)
    rfl rfl).1

end Gtm
